import Mathlib

/-!
# Item Management Service (`src/api/api.go`)

A shallow embedding of the HTTP handler layer of `src/api/api.go`: the five
handlers `GetItems`, `GetItem`, `CreateItem`, `UpdateItem`, `DeleteItem`, the
response helpers `respondWithError` / `respondWithJSON`, and the dispatch of
`SetupRoutes`.

The handlers are Go code of the repository and are embedded statement by
statement.  Three libraries they call are not part of the repository and are
represented by small executable models, each documented where it is defined:

* `encoding/json` : request bodies are abstract JSON values (`Body`, `JSON`),
  `jsonDecode` is `Decoder.Decode` into a zero `Item`, `jsonMarshal` is
  `json.Marshal` on the three payload types the handlers pass;
* `strconv.Atoi` : `Atoi`;
* `database/sql` over SQLite : the table `items` is a list of rows together
  with the AUTOINCREMENT counter (`DB`), and the five SQL statements of the
  source are the functions `sqlSelectAll`, `sqlSelectById`, `sqlInsert`,
  `sqlUpdate`, `sqlDelete`.  The comparison `id = ?` receives the id as text:
  a text that is an integer literal is compared as that integer; what the
  engine makes of any other text (blanks around a number, a fraction, an
  exponent: SQLite converts these through floating point) is not fixed by the
  model but taken as a parameter `aff : Affinity`, and every statement about
  `GetItem`, `UpdateItem`, `DeleteItem` holds for every such `aff`.

A handler returns an `Outcome`: the response it wrote, the store after the
request, and the list of SQL statements it issued.

The handlers keep every `err != nil` branch of the source (status 500).  The
one storage error the model of the engine produces is the INSERT that cannot
assign an id any more: rowids are 64-bit, and when the largest id ever
assigned is `2^63 - 1` SQLite refuses the INSERT ("database or disk is full").
Failures of the connection or of the disk are not states of the model.  Go
`int` is the 64-bit type, so `int(id)` on the `int64` of `LastInsertId` is the
identity.
-/

namespace ItemService

/-! ## Data model -/

/-- Item of `api.go`: `ID int`, `Name string`, `Value string`. -/
structure Item where
  ID : Int
  Name : String
  Value : String
  deriving DecidableEq, Repr

/-- The zero value of `Item` (`var i Item`). -/
def Item.zero : Item := ⟨0, "", ""⟩

/-! ## Decimal integers (`strconv.Atoi`, text parameters of SQL statements) -/

/-- Value of a decimal digit character, `none` for any other character. -/
def digitVal (c : Char) : Option Nat :=
  if 48 ≤ c.toNat ∧ c.toNat ≤ 57 then some (c.toNat - 48) else none

/-- Reads a run of decimal digits, most significant first, onto `acc`. -/
def parseDigits : List Char → Nat → Option Nat
  | [], acc => some acc
  | c :: cs, acc =>
    match digitVal c with
    | none => none
    | some d => parseDigits cs (acc * 10 + d)

/-- Integer denoted by an optional sign followed by at least one decimal digit. -/
def parseSigned : List Char → Option Int
  | [] => none
  | c :: cs =>
    if c = '-' then
      if cs = [] then none else (parseDigits cs 0).map (fun n => -(n : Int))
    else if c = '+' then
      if cs = [] then none else (parseDigits cs 0).map (fun n => (n : Int))
    else (parseDigits (c :: cs) 0).map (fun n => (n : Int))

/-- Model of `strconv.Atoi` (64-bit `int`): an optional sign and decimal digits,
with a range error outside `[-2^63, 2^63)`; `none` stands for `err != nil`. -/
def Atoi (s : String) : Option Int :=
  match parseSigned s.data with
  | none => none
  | some n => if -(2 ^ 63 : Int) ≤ n ∧ n < 2 ^ 63 then some n else none

/-- The character of a decimal digit `d < 10`. -/
def digitChar (d : Nat) : Char := Char.ofNat (48 + d)

/-- Decimal digits of `n`, most significant first; `fuel` bounds the number of digits. -/
def natDigitsAux : Nat → Nat → List Char
  | 0, _ => []
  | fuel + 1, n =>
    if n < 10 then [digitChar n] else natDigitsAux fuel (n / 10) ++ [digitChar (n % 10)]

/-- Decimal digits of a natural number. -/
def natDigits (n : Nat) : List Char := natDigitsAux (n + 1) n

/-- The decimal numeral of an integer, as a client writes it in `?id=`. -/
def decimal (k : Int) : String :=
  match k with
  | Int.ofNat n => ⟨natDigits n⟩
  | Int.negSucc n => ⟨'-' :: natDigits (n + 1)⟩

/-! ## JSON (`encoding/json`) -/

/-- JSON values.  `num` is a number literal that is an integer, `real` any
other number literal (one with a fraction or an exponent), kept as written. -/
inductive JSON where
  | null : JSON
  | bool (b : Bool) : JSON
  | num (n : Int) : JSON
  | real (lit : String) : JSON
  | str (s : String) : JSON
  | arr (xs : List JSON) : JSON
  | obj (kvs : List (String × JSON)) : JSON

/-- The request body as the decoder sees it: `malformed` when the stream does
not start with a well-formed JSON value (empty body, non-JSON text), otherwise
the first JSON value of the stream. -/
inductive Body where
  | malformed : Body
  | json (v : JSON) : Body

/-- The key of an object member with ASCII letters in lower case. -/
def foldKey (key : String) : List Char := key.data.map Char.toLower

/-- One member of a JSON object decoded into an `Item`.  Keys are matched to
the tags `id`, `name`, `value` ignoring ASCII case; an unknown key is skipped;
`null` leaves the field as it is; a value of another JSON type than the
field's Go type, or an integer outside `int`, is an `UnmarshalTypeError`. -/
def decodeMember (i : Item) (kv : String × JSON) : Except String Item :=
  if foldKey kv.1 = ['i', 'd'] then
    match kv.2 with
    | JSON.null => .ok i
    | JSON.num n =>
      if -(2 ^ 63 : Int) ≤ n ∧ n < 2 ^ 63 then .ok { i with ID := n }
      else .error "json: cannot unmarshal number into Go struct field Item.id of type int"
    | _ => .error "json: cannot unmarshal into Go struct field Item.id of type int"
  else if foldKey kv.1 = ['n', 'a', 'm', 'e'] then
    match kv.2 with
    | JSON.null => .ok i
    | JSON.str s => .ok { i with Name := s }
    | _ => .error "json: cannot unmarshal into Go struct field Item.name of type string"
  else if foldKey kv.1 = ['v', 'a', 'l', 'u', 'e'] then
    match kv.2 with
    | JSON.null => .ok i
    | JSON.str s => .ok { i with Value := s }
    | _ => .error "json: cannot unmarshal into Go struct field Item.value of type string"
  else .ok i

/-- The members of an object applied in order to `i` (a later duplicate wins). -/
def decodeMembers : List (String × JSON) → Item → Except String Item
  | [], i => .ok i
  | kv :: rest, i =>
    match decodeMember i kv with
    | .error e => .error e
    | .ok j => decodeMembers rest j

/-- Model of `json.NewDecoder(r.Body).Decode(&i)` on `var i Item`: the result
is the decoded item, or the error.  A member that is absent from the object
leaves its field at the zero value and is no error. -/
def jsonDecode : Body → Except String Item
  | Body.malformed => .error "invalid character"
  | Body.json JSON.null => .ok Item.zero
  | Body.json (JSON.obj kvs) => decodeMembers kvs Item.zero
  | Body.json _ => .error "json: cannot unmarshal into Go value of type main.Item"

/-- The values `respondWithJSON` receives as `payload interface{}` in this
program.  A Go slice `[]Item` is `none` when it is nil. -/
inductive Payload where
  | item (i : Item) : Payload
  | items (s : Option (List Item)) : Payload
  | strMap (m : List (String × String)) : Payload

/-- Encoding of an `Item` with its `json:` tags, in field order. -/
def marshalItem (i : Item) : JSON :=
  JSON.obj [("id", JSON.num i.ID), ("name", JSON.str i.Name), ("value", JSON.str i.Value)]

/-- Model of `json.Marshal` on the payloads of this program: a struct is an
object, a non-nil slice an array, a nil slice the JSON value `null`, a
`map[string]string` an object. -/
def jsonMarshal : Payload → Except String JSON
  | Payload.item i => .ok (marshalItem i)
  | Payload.items none => .ok JSON.null
  | Payload.items (some l) => .ok (JSON.arr (l.map marshalItem))
  | Payload.strMap m => .ok (JSON.obj (m.map (fun kv => (kv.1, JSON.str kv.2))))

/-- Go `append(items, i)` on a possibly nil slice. -/
def goAppend (s : Option (List Item)) (i : Item) : Option (List Item) :=
  match s with
  | none => some [i]
  | some l => some (l ++ [i])

/-! ## The store (`database/sql` over SQLite) -/

/-- The table `items (id INTEGER PRIMARY KEY AUTOINCREMENT, name TEXT NOT NULL,
value TEXT NOT NULL)`: its rows in scan order, and `seq`, the largest id the
table has ever assigned (SQLite keeps it in `sqlite_sequence`). -/
structure DB where
  rows : List Item
  seq : Nat
  deriving DecidableEq, Repr

/-- The SQL statements of `api.go`, with their bound parameters. -/
inductive Stmt where
  | selectAll : Stmt
  | selectById (id : String) : Stmt
  | insert (name value : String) : Stmt
  | update (name value id : String) : Stmt
  | delete (id : String) : Stmt
  deriving DecidableEq, Repr

/-- The largest id among the rows (0 when there is none above 0). -/
def maxRowid (rows : List Item) : Int :=
  rows.foldl (fun m r => max m r.ID) 0

/-- The id AUTOINCREMENT gives the next inserted row: one more than the
largest id the table holds or has ever assigned. -/
def nextId (db : DB) : Int := max (db.seq : Int) (maxRowid db.rows) + 1

/-- What the engine's numeric affinity makes of a text parameter that is not
an integer literal: the integer the text is converted to, or `none` when it
stays text or becomes a number that is no integer.  In SQLite `"5.0"`, `" 5"`,
`"5e0"` are converted to 5 and `"abc"` is not converted; the conversion reads
the text as a floating-point number and is not modelled here. -/
abbrev Affinity := String → Option Int

/-- An engine that converts no text beyond integer literals; it stands for the
parameter in concrete instances, where the ids are integer literals. -/
def integerLiteralsOnly : Affinity := fun _ => none

/-- The integer a text parameter is compared as in `id = ?`.  The column has
INTEGER affinity: a text that is an integer literal (an optional sign and
decimal digits) is compared as that integer; any other text as whatever the
engine's affinity `aff` converts it to.  A literal outside the 64-bit range is
kept as its value, which is the id of no row a table can hold. -/
def sqlIntOfText (aff : Affinity) (s : String) : Option Int :=
  match parseSigned s.data with
  | some n => some n
  | none => aff s

/-- Whether the row satisfies `WHERE id = ?` for the text parameter `id`. -/
def rowMatches (aff : Affinity) (id : String) (row : Item) : Bool :=
  match sqlIntOfText aff id with
  | none => false
  | some k => decide (row.ID = k)

/-- `SELECT id, name, value FROM items`: the rows, or a storage error. -/
def sqlSelectAll (db : DB) : Except String (List Item) := .ok db.rows

/-- `SELECT id, name, value FROM items WHERE id = ?` through `QueryRow`: the
first matching row, `none` when `Scan` reports `sql.ErrNoRows`, or another
storage error. -/
def sqlSelectById (aff : Affinity) (db : DB) (id : String) : Except String (Option Item) :=
  .ok (db.rows.find? (rowMatches aff id))

/-- `INSERT INTO items(name, value) VALUES(?, ?)`: the store with the new row
and `LastInsertId`, or a storage error.  Ids are 64-bit: when the next id would
exceed `2^63 - 1` the INSERT fails and the store is left as it is. -/
def sqlInsert (db : DB) (name value : String) : Except String (DB × Int) :=
  if nextId db < 2 ^ 63 then
    .ok (⟨db.rows ++ [⟨nextId db, name, value⟩], (nextId db).toNat⟩, nextId db)
  else .error "database or disk is full"

/-- `UPDATE items SET name = ?, value = ? WHERE id = ?`: every matching row gets
the new name and value and keeps its id; no matching row is no error. -/
def sqlUpdate (aff : Affinity) (db : DB) (name value id : String) : Except String DB :=
  .ok ⟨db.rows.map (fun row => if rowMatches aff id row then ⟨row.ID, name, value⟩ else row),
    db.seq⟩

/-- `DELETE FROM items WHERE id = ?`: the matching rows are removed; no
matching row is no error.  The AUTOINCREMENT counter is kept. -/
def sqlDelete (aff : Affinity) (db : DB) (id : String) : Except String DB :=
  .ok ⟨db.rows.filter (fun row => !rowMatches aff id row), db.seq⟩

/-! ## HTTP requests and responses -/

/-- The parts of `*http.Request` the handlers read. -/
structure Request where
  Method : String
  Path : String
  Query : List (String × String)
  Body : Body

/-- `r.URL.Query().Get(key)`: the first value of the key, `""` when absent. -/
def Request.queryGet (r : Request) (key : String) : String :=
  match r.Query.find? (fun kv => kv.1 = key) with
  | none => ""
  | some kv => kv.2

/-- What was written to the `http.ResponseWriter`: a JSON document sent with
`Content-Type: application/json`, or plain bytes. -/
inductive Written where
  | json (j : JSON) : Written
  | plain (s : String) : Written

/-- Status code and body of the response. -/
structure Response where
  code : Nat
  body : Written

/-- Result of serving one request: the response, the store afterwards and the
SQL statements issued, in order. -/
structure Outcome where
  resp : Response
  db : DB
  calls : List Stmt

/-- `respondWithJSON(w, code, payload)`. -/
def respondWithJSON (code : Nat) (payload : Payload) : Response :=
  match jsonMarshal payload with
  | .error _ => ⟨500, Written.plain "Error encoding response"⟩
  | .ok response => ⟨code, Written.json response⟩

/-- `respondWithError(w, code, message)`. -/
def respondWithError (code : Nat) (message : String) : Response :=
  respondWithJSON code (Payload.strMap [("error", message)])

/-! ## Handlers -/

/-- The loop `for rows.Next() { rows.Scan(...); items = append(items, i) }`.
Scanning an INTEGER and two TEXT columns into `int`, `string`, `string`
succeeds in the model. -/
def scanRows : List Item → Option (List Item) → Except String (Option (List Item))
  | [], items => .ok items
  | row :: rest, items => scanRows rest (goAppend items row)

/-- `App.GetItems`. -/
def GetItems (db : DB) (_r : Request) : Outcome :=
  match sqlSelectAll db with
  | .error e => ⟨respondWithError 500 e, db, [Stmt.selectAll]⟩
  | .ok rows =>
    match scanRows rows none with
    | .error e => ⟨respondWithError 500 e, db, [Stmt.selectAll]⟩
    | .ok items => ⟨respondWithJSON 200 (Payload.items items), db, [Stmt.selectAll]⟩

/-- `App.GetItem`. -/
def GetItem (aff : Affinity) (db : DB) (r : Request) : Outcome :=
  let id := r.queryGet "id"
  if id = "" then ⟨respondWithError 400 "Missing item ID", db, []⟩
  else
    match sqlSelectById aff db id with
    | .ok (some i) => ⟨respondWithJSON 200 (Payload.item i), db, [Stmt.selectById id]⟩
    | .ok none => ⟨respondWithError 404 "Item not found", db, [Stmt.selectById id]⟩
    | .error e => ⟨respondWithError 500 e, db, [Stmt.selectById id]⟩

/-- `App.CreateItem`. -/
def CreateItem (db : DB) (r : Request) : Outcome :=
  match jsonDecode r.Body with
  | .error _ => ⟨respondWithError 400 "Invalid request payload", db, []⟩
  | .ok i =>
    match sqlInsert db i.Name i.Value with
    | .error e => ⟨respondWithError 500 e, db, [Stmt.insert i.Name i.Value]⟩
    | .ok (db', id) =>
      ⟨respondWithJSON 201 (Payload.item { i with ID := id }), db', [Stmt.insert i.Name i.Value]⟩

/-- `App.UpdateItem`.  Line 126 of the source reads
`if id == "", err := strconv.Atoi(id); err != nil`, which spells the guard out
but is not well-formed Go; it is embedded as the guard it names: the request
is rejected when `id` is empty or `strconv.Atoi(id)` reports an error.  The
integer `Atoi` yields is not kept: `id` stays the query string and is what
the UPDATE statement receives, and the payload of the response is the
decoded body `i`. -/
def UpdateItem (aff : Affinity) (db : DB) (r : Request) : Outcome :=
  let id := r.queryGet "id"
  if id = "" ∨ (Atoi id).isNone then ⟨respondWithError 400 "Invalid item ID", db, []⟩
  else
    match jsonDecode r.Body with
    | .error _ => ⟨respondWithError 400 "Invalid request payload", db, []⟩
    | .ok i =>
      match sqlUpdate aff db i.Name i.Value id with
      | .error e => ⟨respondWithError 500 e, db, [Stmt.update i.Name i.Value id]⟩
      | .ok db' => ⟨respondWithJSON 200 (Payload.item i), db', [Stmt.update i.Name i.Value id]⟩

/-- `App.DeleteItem`. -/
def DeleteItem (aff : Affinity) (db : DB) (r : Request) : Outcome :=
  let id := r.queryGet "id"
  if id = "" then ⟨respondWithError 400 "Missing item ID", db, []⟩
  else
    match sqlDelete aff db id with
    | .error e => ⟨respondWithError 500 e, db, [Stmt.delete id]⟩
    | .ok db' =>
      ⟨respondWithJSON 200 (Payload.strMap [("result", "success")]), db', [Stmt.delete id]⟩

/-! ## Router -/

/-- The handler registered on `/api/items`. -/
def itemsHandler (db : DB) (r : Request) : Outcome :=
  if r.Method = "GET" then GetItems db r
  else if r.Method = "POST" then CreateItem db r
  else ⟨respondWithError 405 "Method not allowed", db, []⟩

/-- The handler registered on `/api/item`. -/
def itemHandler (aff : Affinity) (db : DB) (r : Request) : Outcome :=
  if r.Method = "GET" then GetItem aff db r
  else if r.Method = "PUT" then UpdateItem aff db r
  else if r.Method = "DELETE" then DeleteItem aff db r
  else ⟨respondWithError 405 "Method not allowed", db, []⟩

/-- The mux of `App.SetupRoutes`: the two exact patterns, and `/` for every
other path, served by the file server `fs` (not part of the service). -/
def SetupRoutes (aff : Affinity) (fs : DB → Request → Outcome) (db : DB) (r : Request) :
    Outcome :=
  if r.Path = "/api/items" then itemsHandler db r
  else if r.Path = "/api/item" then itemHandler aff db r
  else fs db r


/-! ## Request sequences -/

/-- Serving Create requests one after the other, each on the store the previous
one left: the responses in order, and the final store. -/
def createAll : DB → List Request → List Response × DB
  | db, [] => ([], db)
  | db, r :: rs =>
    ((CreateItem db r).resp :: (createAll (CreateItem db r).db rs).1,
      (createAll (CreateItem db r).db rs).2)

/-! ## Decimal numerals are read back -/

theorem digitVal_digitChar (d : Nat) (h : d < 10) : digitVal (digitChar d) = some d := by
  interval_cases d <;> rfl

theorem digitChar_ne_sign (d : Nat) (h : d < 10) :
    digitChar d ≠ '-' ∧ digitChar d ≠ '+' := by
  interval_cases d <;> decide

theorem parseDigits_append (l : List Char) (c : Char) (acc : Nat) :
    parseDigits (l ++ [c]) acc =
      (parseDigits l acc).bind (fun a => (digitVal c).map (fun d => a * 10 + d)) := by
  induction l generalizing acc with
  | nil =>
    simp only [List.nil_append, parseDigits, Option.some_bind]
    cases digitVal c <;> simp [parseDigits]
  | cons x xs ih =>
    simp only [List.cons_append, parseDigits]
    cases digitVal x with
    | none => simp
    | some d => simpa using ih (acc * 10 + d)

theorem parseDigits_natDigitsAux (fuel : Nat) :
    ∀ n, n < fuel → parseDigits (natDigitsAux fuel n) 0 = some n := by
  induction fuel with
  | zero => intro n h; omega
  | succ f ih =>
    intro n h
    unfold natDigitsAux
    by_cases h10 : n < 10
    · simp [h10, parseDigits, digitVal_digitChar n h10]
    · have hd : n / 10 < f := by omega
      have hm : n % 10 < 10 := Nat.mod_lt _ (by decide)
      simp only [h10, if_false, parseDigits_append, ih _ hd, Option.some_bind,
        digitVal_digitChar _ hm, Option.map_some']
      congr 1
      omega

theorem natDigitsAux_digits (fuel : Nat) :
    ∀ n, ∀ c ∈ natDigitsAux fuel n, ∃ d, d < 10 ∧ c = digitChar d := by
  induction fuel with
  | zero => intro n c hc; simp [natDigitsAux] at hc
  | succ f ih =>
    intro n c hc
    unfold natDigitsAux at hc
    by_cases h10 : n < 10
    · simp only [h10, if_true, List.mem_singleton] at hc
      exact ⟨n, h10, hc⟩
    · simp only [h10, if_false, List.mem_append, List.mem_singleton] at hc
      rcases hc with hc | hc
      · exact ih _ c hc
      · exact ⟨n % 10, Nat.mod_lt _ (by decide), hc⟩

theorem natDigits_ne_nil (n : Nat) : natDigits n ≠ [] := by
  unfold natDigits natDigitsAux
  by_cases h10 : n < 10 <;> simp [h10]

theorem parseDigits_natDigits (n : Nat) : parseDigits (natDigits n) 0 = some n :=
  parseDigits_natDigitsAux (n + 1) n (Nat.lt_succ_self n)

theorem parseSigned_natDigits (n : Nat) : parseSigned (natDigits n) = some (n : Int) := by
  have hp := parseDigits_natDigits n
  have hd := natDigitsAux_digits (n + 1) n
  have hne := natDigits_ne_nil n
  unfold natDigits at hp hne
  cases hl : natDigitsAux (n + 1) n with
  | nil => exact absurd hl hne
  | cons c cs =>
    rw [hl] at hp hd
    obtain ⟨d, hd10, hc⟩ := hd c (List.mem_cons_self _ _)
    have hs := digitChar_ne_sign d hd10
    rw [← hc] at hs
    simp [natDigits, hl, parseSigned, hs.1, hs.2, hp]

theorem parseSigned_decimal (k : Int) : parseSigned (decimal k).data = some k := by
  cases k with
  | ofNat n => simpa [decimal] using parseSigned_natDigits n
  | negSucc n =>
    simp [decimal, parseSigned, natDigits_ne_nil, parseDigits_natDigits, Int.negSucc_eq]

theorem sqlIntOfText_decimal (aff : Affinity) (k : Int) :
    sqlIntOfText aff (decimal k) = some k := by
  simp [sqlIntOfText, parseSigned_decimal]

theorem decimal_ne_empty (k : Int) : decimal k ≠ "" := by
  cases k with
  | ofNat n =>
    intro h
    have : natDigits n = [] := by simpa [decimal] using congrArg String.data h
    exact natDigits_ne_nil n this
  | negSucc n =>
    intro h
    have := congrArg String.data h
    simp [decimal] at this

/-! ## Facts about the store -/

theorem rowMatches_decimal (aff : Affinity) (k : Int) (row : Item) :
    rowMatches aff (decimal k) row = decide (row.ID = k) := by
  simp [rowMatches, sqlIntOfText_decimal]

/-- A text the engine converts is matched as the integer it is converted to:
with `aff "5.0" = some 5`, `GET ?id=5.0` finds row 5. -/
theorem get_item_converted_text (aff : Affinity) (h : aff "5.0" = some 5) :
    (GetItem aff ⟨[⟨5, "a", "b"⟩], 5⟩ ⟨"GET", "/api/item", [("id", "5.0")], Body.malformed⟩).resp =
      ⟨200, Written.json (marshalItem ⟨5, "a", "b"⟩)⟩ := by
  have hp : parseSigned ("5.0" : String).data = none := by decide
  have hq : (⟨"GET", "/api/item", [("id", "5.0")], Body.malformed⟩ : Request).queryGet "id" =
      "5.0" := by decide
  simp [GetItem, hq, sqlSelectById, rowMatches, sqlIntOfText, hp, h, respondWithJSON,
    jsonMarshal]

/-- The JSON error envelope `{"error": message}`. -/
theorem respondWithError_eq (code : Nat) (message : String) :
    respondWithError code message =
      ⟨code, Written.json (JSON.obj [("error", JSON.str message)])⟩ := rfl

theorem CreateItem_ok (db : DB) (r : Request) (i : Item)
    (hdec : jsonDecode r.Body = Except.ok i) (hroom : nextId db < 2 ^ 63) :
    CreateItem db r =
      ⟨⟨201, Written.json (marshalItem ⟨nextId db, i.Name, i.Value⟩)⟩,
        ⟨db.rows ++ [⟨nextId db, i.Name, i.Value⟩], (nextId db).toNat⟩,
        [Stmt.insert i.Name i.Value]⟩ := by
  simp only [CreateItem, hdec, sqlInsert, if_pos hroom]
  rfl

theorem CreateItem_full (db : DB) (r : Request) (i : Item)
    (hdec : jsonDecode r.Body = Except.ok i) (hfull : ¬ nextId db < 2 ^ 63) :
    CreateItem db r =
      ⟨⟨500, Written.json (JSON.obj [("error", JSON.str "database or disk is full")])⟩, db,
        [Stmt.insert i.Name i.Value]⟩ := by
  simp only [CreateItem, hdec, sqlInsert, if_neg hfull]
  rfl

theorem CreateItem_rejected (db : DB) (r : Request) (e : String)
    (hdec : jsonDecode r.Body = Except.error e) :
    CreateItem db r =
      ⟨⟨400, Written.json (JSON.obj [("error", JSON.str "Invalid request payload")])⟩, db,
        []⟩ := by
  simp [CreateItem, hdec, respondWithError_eq]

/-! ## Create and Get -/

/-- C3 (the code at the failing input). Store with the row `{5, "a", "b"}`,
`PUT ?id=5` with body `{"name": "x", "value": "y"}` (no id member): the row
becomes `{5, "x", "y"}`, but the response is 200 with `{id: 0, name: "x",
value: "y"}`, the decoded body, and not the stored item with id 5. -/
theorem update_response_is_decoded_body (aff : Affinity) :
    (UpdateItem aff ⟨[⟨5, "a", "b"⟩], 5⟩ ⟨"PUT", "/api/item", [("id", "5")],
        Body.json (JSON.obj [("name", JSON.str "x"), ("value", JSON.str "y")])⟩).resp =
        ⟨200, Written.json (marshalItem ⟨0, "x", "y"⟩)⟩ ∧
      (UpdateItem aff ⟨[⟨5, "a", "b"⟩], 5⟩ ⟨"PUT", "/api/item", [("id", "5")],
        Body.json (JSON.obj [("name", JSON.str "x"), ("value", JSON.str "y")])⟩).db =
        ⟨[⟨5, "x", "y"⟩], 5⟩ ∧
      marshalItem ⟨0, "x", "y"⟩ ≠ marshalItem ⟨5, "x", "y"⟩ := by
  refine ⟨rfl, rfl, ?_⟩
  simp [marshalItem]

/-! ## List -/

/-- C7 (the code on the empty store). With no rows the slice `items` is still
nil when it is encoded, so `GetItems` responds 200 with the JSON value `null`,
which is not the empty array `[]`. -/
theorem get_items_empty_store_is_null (seq : Nat) (g : Request) :
    (GetItems ⟨[], seq⟩ g).resp = ⟨200, Written.json JSON.null⟩ ∧
      (GetItems ⟨[], seq⟩ g).resp ≠ ⟨200, Written.json (JSON.arr [])⟩ := by
  refine ⟨rfl, ?_⟩
  simp [GetItems, sqlSelectAll, scanRows, respondWithJSON, jsonMarshal]

/-! ## Unknown id -/

/-- C9. Unknown id lookup: for every store, every engine affinity and every
non-empty `id` parameter that matches no row (as the integer literal it is, or
as what the engine converts it to), `GetItem` responds 404 (so neither 500 nor
400) with the error envelope `{"error": "Item not found"}`, and the store is
unchanged. -/
theorem get_item_unknown_id (aff : Affinity) (db : DB) (g : Request)
    (hid : g.queryGet "id" ≠ "")
    (hno : ∀ row ∈ db.rows, rowMatches aff (g.queryGet "id") row = false) :
    (GetItem aff db g).resp =
        ⟨404, Written.json (JSON.obj [("error", JSON.str "Item not found")])⟩ ∧
      (GetItem aff db g).resp.code ≠ 500 ∧ (GetItem aff db g).resp.code ≠ 400 ∧
      (GetItem aff db g).db = db := by
  have hfind : db.rows.find? (rowMatches aff (g.queryGet "id")) = none := by
    rw [List.find?_eq_none]
    intro row hrow
    simp [hno row hrow]
  simp [GetItem, hid, sqlSelectById, hfind, respondWithError_eq]

/-- Witness of C9: `id=99999` on the empty store, and on a store holding rows 4
and 5. -/
theorem get_item_unknown_id_witness :
    ((GetItem integerLiteralsOnly ⟨[], 0⟩
        ⟨"GET", "/api/item", [("id", "99999")], Body.malformed⟩).resp =
        ⟨404, Written.json (JSON.obj [("error", JSON.str "Item not found")])⟩ ∧
      (GetItem integerLiteralsOnly ⟨[], 0⟩
        ⟨"GET", "/api/item", [("id", "99999")], Body.malformed⟩).resp.code ≠ 500 ∧
      (GetItem integerLiteralsOnly ⟨[], 0⟩
        ⟨"GET", "/api/item", [("id", "99999")], Body.malformed⟩).resp.code ≠ 400 ∧
      (GetItem integerLiteralsOnly ⟨[], 0⟩
        ⟨"GET", "/api/item", [("id", "99999")], Body.malformed⟩).db = ⟨[], 0⟩) ∧
    (GetItem integerLiteralsOnly ⟨[⟨4, "p", "q"⟩, ⟨5, "a", "b"⟩], 5⟩
        ⟨"GET", "/api/item", [("id", "99999")], Body.malformed⟩).resp =
      ⟨404, Written.json (JSON.obj [("error", JSON.str "Item not found")])⟩ :=
  ⟨get_item_unknown_id integerLiteralsOnly ⟨[], 0⟩
      ⟨"GET", "/api/item", [("id", "99999")], Body.malformed⟩
      (by decide) (by intro row hrow; cases hrow),
    (get_item_unknown_id integerLiteralsOnly ⟨[⟨4, "p", "q"⟩, ⟨5, "a", "b"⟩], 5⟩
      ⟨"GET", "/api/item", [("id", "99999")], Body.malformed⟩
      (by decide) (by decide)).1⟩

/-! ## Update then Get, Delete then Get -/

theorem find?_filter_delete (aff : Affinity) (id : String) (rows : List Item) :
    (rows.filter (fun row => !rowMatches aff id row)).find? (rowMatches aff id) = none := by
  rw [List.find?_eq_none]
  intro row hrow
  have := (List.mem_filter.mp hrow).2
  simpa using this

/-- C5. Delete is idempotent on observation: for every store holding a row with
id `k`, `DeleteItem` with `id = decimal k` responds 200 with
`{"result": "success"}` and no row with id `k` remains; a following `GetItem`
with `id = decimal k` responds 404 with the error envelope; a second
`DeleteItem` with the same id again responds 200 with `{"result": "success"}`
and leaves the store as the first delete left it.  This holds for every engine
affinity: the id is an integer literal. -/
theorem delete_idempotent (aff : Affinity) (db : DB) (k : Int) (r g : Request)
    (_hk : ∃ row ∈ db.rows, row.ID = k)
    (hr : r.queryGet "id" = decimal k)
    (hg : g.queryGet "id" = decimal k) :
    (DeleteItem aff db r).resp =
        ⟨200, Written.json (JSON.obj [("result", JSON.str "success")])⟩ ∧
      (∀ row ∈ (DeleteItem aff db r).db.rows, row.ID ≠ k) ∧
      (GetItem aff (DeleteItem aff db r).db g).resp =
        ⟨404, Written.json (JSON.obj [("error", JSON.str "Item not found")])⟩ ∧
      (DeleteItem aff (DeleteItem aff db r).db r).resp =
        ⟨200, Written.json (JSON.obj [("result", JSON.str "success")])⟩ ∧
      (DeleteItem aff (DeleteItem aff db r).db r).db = (DeleteItem aff db r).db := by
  have hne := decimal_ne_empty k
  have hfind := find?_filter_delete aff (decimal k) db.rows
  refine ⟨?_, ?_, ?_, ?_, ?_⟩
  · simp [DeleteItem, hr, hne, sqlDelete, respondWithJSON, jsonMarshal]
  · intro row hrow
    have hmem : row ∈ db.rows.filter (fun row => !rowMatches aff (decimal k) row) := by
      simpa [DeleteItem, hr, hne, sqlDelete] using hrow
    have := (List.mem_filter.mp hmem).2
    simpa [rowMatches_decimal] using this
  · simp [DeleteItem, hr, hne, sqlDelete, GetItem, hg, sqlSelectById, hfind,
      respondWithError_eq]
  · simp [DeleteItem, hr, hne, sqlDelete, respondWithJSON, jsonMarshal]
  · simp [DeleteItem, hr, hne, sqlDelete, List.filter_filter]

/-- Witness of C5: rows 4 and 5, `DELETE ?id=5`. -/
theorem delete_idempotent_witness :
    (DeleteItem integerLiteralsOnly ⟨[⟨4, "p", "q"⟩, ⟨5, "a", "b"⟩], 5⟩
        ⟨"DELETE", "/api/item", [("id", "5")], Body.malformed⟩).db = ⟨[⟨4, "p", "q"⟩], 5⟩ ∧
      (GetItem integerLiteralsOnly (DeleteItem integerLiteralsOnly
        ⟨[⟨4, "p", "q"⟩, ⟨5, "a", "b"⟩], 5⟩
        ⟨"DELETE", "/api/item", [("id", "5")], Body.malformed⟩).db
        ⟨"GET", "/api/item", [("id", "5")], Body.malformed⟩).resp =
        ⟨404, Written.json (JSON.obj [("error", JSON.str "Item not found")])⟩ ∧
      (DeleteItem integerLiteralsOnly (DeleteItem integerLiteralsOnly
        ⟨[⟨4, "p", "q"⟩, ⟨5, "a", "b"⟩], 5⟩
        ⟨"DELETE", "/api/item", [("id", "5")], Body.malformed⟩).db
        ⟨"DELETE", "/api/item", [("id", "5")], Body.malformed⟩).db =
        (DeleteItem integerLiteralsOnly ⟨[⟨4, "p", "q"⟩, ⟨5, "a", "b"⟩], 5⟩
        ⟨"DELETE", "/api/item", [("id", "5")], Body.malformed⟩).db :=
  have h := delete_idempotent integerLiteralsOnly ⟨[⟨4, "p", "q"⟩, ⟨5, "a", "b"⟩], 5⟩ 5
    ⟨"DELETE", "/api/item", [("id", "5")], Body.malformed⟩
    ⟨"GET", "/api/item", [("id", "5")], Body.malformed⟩
    ⟨⟨5, "a", "b"⟩, by decide, rfl⟩ (by decide) (by decide)
  ⟨by decide, h.2.2.1, h.2.2.2.2⟩


/-! ## Validation before storage -/

/-- C8. Identifier and body validation is reported before any storage call.
For every store and request: (a) when the `id` parameter is absent or empty,
`GetItem`, `UpdateItem` and `DeleteItem` each respond 400 with the error
envelope; (b) when `strconv.Atoi` rejects `id` (so in particular when `id` is
not a decimal integer), `UpdateItem` responds 400; (c) when `id` is a valid
integer and the body does not decode, `UpdateItem` responds 400.  In each case
no SQL statement is issued and the store is unchanged. -/
theorem validation_before_storage (aff : Affinity) (db : DB) (r : Request) :
    (r.queryGet "id" = "" →
      GetItem aff db r = ⟨⟨400, Written.json (JSON.obj [("error", JSON.str "Missing item ID")])⟩,
        db, []⟩ ∧
      UpdateItem aff db r = ⟨⟨400, Written.json (JSON.obj [("error", JSON.str "Invalid item ID")])⟩,
        db, []⟩ ∧
      DeleteItem aff db r = ⟨⟨400, Written.json (JSON.obj [("error", JSON.str "Missing item ID")])⟩,
        db, []⟩) ∧
    (Atoi (r.queryGet "id") = none →
      UpdateItem aff db r = ⟨⟨400, Written.json (JSON.obj [("error", JSON.str "Invalid item ID")])⟩,
        db, []⟩) ∧
    (parseSigned (r.queryGet "id").data = none → Atoi (r.queryGet "id") = none) ∧
    (∀ k e, Atoi (r.queryGet "id") = some k → jsonDecode r.Body = Except.error e →
      UpdateItem aff db r =
        ⟨⟨400, Written.json (JSON.obj [("error", JSON.str "Invalid request payload")])⟩,
          db, []⟩) := by
  refine ⟨?_, ?_, ?_, ?_⟩
  · intro h
    simp [GetItem, UpdateItem, DeleteItem, h, respondWithError_eq]
  · intro h
    simp [UpdateItem, h, respondWithError_eq]
  · intro h
    simp [Atoi, h]
  · intro k e hk he
    have hne : r.queryGet "id" ≠ "" := by
      intro h0
      have h1 : Atoi "" = none := by decide
      rw [h0, h1] at hk
      cases hk
    simp [UpdateItem, hk, hne, he, respondWithError_eq]

/-- Witness of C8: `PUT ?id=abc` with a valid body on a store holding row 5;
the same store with no `id` parameter; and `PUT ?id=5` with a body that is not
JSON. -/
theorem validation_before_storage_witness :
    UpdateItem integerLiteralsOnly ⟨[⟨5, "a", "b"⟩], 5⟩ ⟨"PUT", "/api/item", [("id", "abc")],
        Body.json (JSON.obj [("name", JSON.str "x"), ("value", JSON.str "y")])⟩ =
      ⟨⟨400, Written.json (JSON.obj [("error", JSON.str "Invalid item ID")])⟩,
        ⟨[⟨5, "a", "b"⟩], 5⟩, []⟩ ∧
    DeleteItem integerLiteralsOnly ⟨[⟨5, "a", "b"⟩], 5⟩
        ⟨"DELETE", "/api/item", [], Body.malformed⟩ =
      ⟨⟨400, Written.json (JSON.obj [("error", JSON.str "Missing item ID")])⟩,
        ⟨[⟨5, "a", "b"⟩], 5⟩, []⟩ ∧
    UpdateItem integerLiteralsOnly ⟨[⟨5, "a", "b"⟩], 5⟩
        ⟨"PUT", "/api/item", [("id", "5")], Body.malformed⟩ =
      ⟨⟨400, Written.json (JSON.obj [("error", JSON.str "Invalid request payload")])⟩,
        ⟨[⟨5, "a", "b"⟩], 5⟩, []⟩ :=
  ⟨(validation_before_storage integerLiteralsOnly ⟨[⟨5, "a", "b"⟩], 5⟩ ⟨"PUT", "/api/item", [("id", "abc")],
      Body.json (JSON.obj [("name", JSON.str "x"), ("value", JSON.str "y")])⟩).2.1 (by decide),
    ((validation_before_storage integerLiteralsOnly ⟨[⟨5, "a", "b"⟩], 5⟩
      ⟨"DELETE", "/api/item", [], Body.malformed⟩).1 (by decide)).2.2,
    (validation_before_storage integerLiteralsOnly ⟨[⟨5, "a", "b"⟩], 5⟩
      ⟨"PUT", "/api/item", [("id", "5")], Body.malformed⟩).2.2.2 5 _ (by decide) rfl⟩

/-! ## Router -/

/-- C10. Dispatch by method.  On the collection path `/api/items`, GET is
`GetItems` and POST is `CreateItem`; on the singular path `/api/item`, GET is
`GetItem`, PUT is `UpdateItem` and DELETE is `DeleteItem`; every other method on
either path gets 405 with the error envelope `{"error": "Method not allowed"}`,
with no SQL statement issued and the store unchanged. -/
theorem router_dispatch (aff : Affinity) (fs : DB → Request → Outcome) (db : DB) (r : Request) :
    (r.Path = "/api/items" →
      (r.Method = "GET" → SetupRoutes aff fs db r = GetItems db r) ∧
      (r.Method = "POST" → SetupRoutes aff fs db r = CreateItem db r) ∧
      (r.Method ≠ "GET" → r.Method ≠ "POST" →
        SetupRoutes aff fs db r =
          ⟨⟨405, Written.json (JSON.obj [("error", JSON.str "Method not allowed")])⟩,
            db, []⟩)) ∧
    (r.Path = "/api/item" →
      (r.Method = "GET" → SetupRoutes aff fs db r = GetItem aff db r) ∧
      (r.Method = "PUT" → SetupRoutes aff fs db r = UpdateItem aff db r) ∧
      (r.Method = "DELETE" → SetupRoutes aff fs db r = DeleteItem aff db r) ∧
      (r.Method ≠ "GET" → r.Method ≠ "PUT" → r.Method ≠ "DELETE" →
        SetupRoutes aff fs db r =
          ⟨⟨405, Written.json (JSON.obj [("error", JSON.str "Method not allowed")])⟩,
            db, []⟩)) := by
  refine ⟨?_, ?_⟩
  · intro hp
    refine ⟨?_, ?_, ?_⟩
    · intro hm; simp [SetupRoutes, itemsHandler, hp, hm]
    · intro hm; simp [SetupRoutes, itemsHandler, hp, hm]
    · intro h1 h2; simp [SetupRoutes, itemsHandler, hp, h1, h2, respondWithError_eq]
  · intro hp
    refine ⟨?_, ?_, ?_, ?_⟩
    · intro hm; simp [SetupRoutes, itemHandler, hp, hm]
    · intro hm; simp [SetupRoutes, itemHandler, hp, hm]
    · intro hm; simp [SetupRoutes, itemHandler, hp, hm]
    · intro h1 h2 h3
      simp [SetupRoutes, itemHandler, hp, h1, h2, h3, respondWithError_eq]

/-- Witness of C10: DELETE on the collection path, on a store holding row 5. -/
theorem router_dispatch_witness :
    SetupRoutes integerLiteralsOnly
        (fun db _ => ⟨⟨404, Written.plain "404 page not found"⟩, db, []⟩)
        ⟨[⟨5, "a", "b"⟩], 5⟩ ⟨"DELETE", "/api/items", [("id", "5")], Body.malformed⟩ =
      ⟨⟨405, Written.json (JSON.obj [("error", JSON.str "Method not allowed")])⟩,
        ⟨[⟨5, "a", "b"⟩], 5⟩, []⟩ :=
  ((router_dispatch integerLiteralsOnly (fun db _ => ⟨⟨404, Written.plain "404 page not found"⟩, db, []⟩)
      ⟨[⟨5, "a", "b"⟩], 5⟩ ⟨"DELETE", "/api/items", [("id", "5")], Body.malformed⟩).1
    rfl).2.2 (by decide) (by decide)


/-! ## List after Create -/

theorem foldl_max_le (rows : List Item) (a B : Int) (ha : a ≤ B)
    (hrows : ∀ row ∈ rows, row.ID ≤ B) :
    rows.foldl (fun m r => max m r.ID) a ≤ B := by
  induction rows generalizing a with
  | nil => simpa using ha
  | cons x xs ih =>
    simp only [List.foldl_cons]
    exact ih _ (max_le ha (hrows x (List.mem_cons_self _ _)))
      (fun row hr => hrows row (List.mem_cons_of_mem _ hr))

theorem nextId_of_bounded (db : DB) (h : ∀ row ∈ db.rows, row.ID ≤ (db.seq : Int)) :
    nextId db = (db.seq : Int) + 1 := by
  have hle : maxRowid db.rows ≤ (db.seq : Int) :=
    foldl_max_le db.rows 0 _ (Int.ofNat_nonneg _) h
  unfold nextId
  rw [max_eq_left hle]

/-- A Create request answered 201 had a body that decodes, on a store that could
assign an id. -/
theorem CreateItem_created (db : DB) (r : Request) (h : (CreateItem db r).resp.code = 201) :
    ∃ i, jsonDecode r.Body = Except.ok i ∧ nextId db < 2 ^ 63 := by
  cases hd : jsonDecode r.Body with
  | error e =>
    rw [CreateItem_rejected db r e hd] at h
    have h400 : (400 : Nat) = 201 := h
    exact absurd h400 (by decide)
  | ok i =>
    by_cases hroom : nextId db < 2 ^ 63
    · exact ⟨i, rfl, hroom⟩
    · rw [CreateItem_full db r i hd hroom] at h
      have h500 : (500 : Nat) = 201 := h
      exact absurd h500 (by decide)

theorem scanRows_some (rows l : List Item) :
    scanRows rows (some l) = Except.ok (some (l ++ rows)) := by
  induction rows generalizing l with
  | nil => simp [scanRows]
  | cons x xs ih => simp [scanRows, goAppend, ih]

theorem GetItems_nonempty (db : DB) (g : Request) (h : db.rows ≠ []) :
    (GetItems db g).resp = ⟨200, Written.json (JSON.arr (db.rows.map marshalItem))⟩ := by
  cases hr : db.rows with
  | nil => exact absurd hr h
  | cons x xs =>
    simp [GetItems, sqlSelectAll, hr, scanRows, goAppend, scanRows_some, respondWithJSON,
      jsonMarshal]

theorem createAll_spec (rs : List Request) :
    ∀ db : DB, (∀ row ∈ db.rows, row.ID ≤ (db.seq : Int)) →
      (∀ resp ∈ (createAll db rs).1, resp.code = 201) →
      ∃ items : List Item,
        items.length = rs.length ∧
        (createAll db rs).1 =
          items.map (fun it => (⟨201, Written.json (marshalItem it)⟩ : Response)) ∧
        List.Forall₂ (fun it r => ∃ i, jsonDecode r.Body = Except.ok i ∧
          it.Name = i.Name ∧ it.Value = i.Value) items rs ∧
        (createAll db rs).2.rows = db.rows ++ items ∧
        (∀ it ∈ items, (db.seq : Int) < it.ID) ∧
        (items.map Item.ID).Pairwise (fun a b => a < b) := by
  induction rs with
  | nil =>
    intro db _ _
    exact ⟨[], rfl, rfl, List.Forall₂.nil, by simp [createAll], by simp, by simp⟩
  | cons r rs ih =>
    intro db hinv hok
    have hhead : (CreateItem db r).resp.code = 201 :=
      hok _ (by simp only [createAll]; exact List.mem_cons_self _ _)
    have htail : ∀ resp ∈ (createAll (CreateItem db r).db rs).1, resp.code = 201 :=
      fun resp hresp => hok resp (by simp only [createAll]; exact List.mem_cons_of_mem _ hresp)
    obtain ⟨i, hi, hroom⟩ := CreateItem_created db r hhead
    have hnext := nextId_of_bounded db hinv
    have hc := CreateItem_ok db r i hi hroom
    have hseq : (((CreateItem db r).db.seq : Nat) : Int) = (db.seq : Int) + 1 := by
      rw [hc]
      show (((nextId db).toNat : Nat) : Int) = (db.seq : Int) + 1
      rw [hnext]
      omega
    have hrowsC : (CreateItem db r).db.rows = db.rows ++ [⟨nextId db, i.Name, i.Value⟩] := by
      rw [hc]
    have hinv2 : ∀ row ∈ (CreateItem db r).db.rows, row.ID ≤ ((CreateItem db r).db.seq : Int) := by
      intro row hrow
      rw [hrowsC] at hrow
      simp only [List.mem_append, List.mem_singleton] at hrow
      rw [hseq]
      rcases hrow with h | h
      · have := hinv row h
        omega
      · rw [h]
        show nextId db ≤ (db.seq : Int) + 1
        omega
    obtain ⟨items, hlen, hresp, hall, hrows, hgt, hpw⟩ := ih (CreateItem db r).db hinv2 htail
    refine ⟨⟨nextId db, i.Name, i.Value⟩ :: items, by simp [hlen], ?_, ?_, ?_, ?_, ?_⟩
    · simp only [createAll, List.map_cons, hresp]
      rw [hc]
    · exact List.Forall₂.cons ⟨i, hi, rfl, rfl⟩ hall
    · simp only [createAll, hrows, hrowsC]
      simp
    · intro it hit
      rcases List.mem_cons.mp hit with h | h
      · rw [h]
        show (db.seq : Int) < nextId db
        omega
      · have := hgt it h
        omega
    · simp only [List.map_cons, List.pairwise_cons]
      refine ⟨?_, hpw⟩
      intro b hb
      obtain ⟨it, hit, hitb⟩ := List.mem_map.mp hb
      have := hgt it hit
      rw [← hitb]
      show nextId db < it.ID
      omega

theorem marshalItem_injective : Function.Injective marshalItem := by
  intro a b h
  cases a
  cases b
  simpa [marshalItem] using h

/-- C6. List reflects store contents: starting from an empty store, after
`N ≥ 1` Create requests that were all successful (each answered 201), every
response carries an item whose name and value are those of its request;
`GetItems` then responds 200 with a JSON array of exactly `N` entries, the
encodings of those `N` items; each created item occurs exactly once among them
(the entries of the array are pairwise different); the `N` assigned ids are
pairwise distinct. -/
theorem list_reflects_creates (seq : Nat) (rs : List Request) (g : Request)
    (hne : rs ≠ [])
    (hok : ∀ resp ∈ (createAll ⟨[], seq⟩ rs).1, resp.code = 201) :
    ∃ items : List Item,
      items.length = rs.length ∧
      (createAll ⟨[], seq⟩ rs).1 =
        items.map (fun it => (⟨201, Written.json (marshalItem it)⟩ : Response)) ∧
      List.Forall₂ (fun it r => ∃ i, jsonDecode r.Body = Except.ok i ∧
        it.Name = i.Name ∧ it.Value = i.Value) items rs ∧
      (GetItems (createAll ⟨[], seq⟩ rs).2 g).resp =
        ⟨200, Written.json (JSON.arr (items.map marshalItem))⟩ ∧
      (items.map marshalItem).length = rs.length ∧
      (∀ it ∈ items, items.count it = 1) ∧
      (items.map marshalItem).Nodup ∧
      (items.map Item.ID).Nodup := by
  obtain ⟨items, hlen, hresp, hall, hrows, _, hpw⟩ :=
    createAll_spec rs ⟨[], seq⟩ (by intro row hrow; cases hrow) hok
  have hrows2 : (createAll ⟨[], seq⟩ rs).2.rows = items := by simpa using hrows
  have hnd : (items.map Item.ID).Nodup := hpw.imp (fun h => ne_of_lt h)
  have hnd2 : items.Nodup := List.Nodup.of_map _ hnd
  have hitems : items ≠ [] := by
    intro h0
    rw [h0] at hlen
    exact hne (List.length_eq_zero.mp hlen.symm)
  refine ⟨items, hlen, hresp, hall, ?_, by simp [hlen], ?_,
    hnd2.map marshalItem_injective, hnd⟩
  · have := GetItems_nonempty (createAll ⟨[], seq⟩ rs).2 g (by rw [hrows2]; exact hitems)
    rw [this, hrows2]
  · intro it hit
    exact List.count_eq_one_of_mem hnd2 hit

/-- Witness of C6: two Create requests on the fresh store, `{"name": "a",
"value": "b"}` and `{"name": "c", "value": "d"}`, both answered 201. -/
theorem list_reflects_creates_witness :
    ∃ items : List Item,
      items.length = 2 ∧
      (createAll ⟨[], 0⟩
        [⟨"POST", "/api/items", [],
            Body.json (JSON.obj [("name", JSON.str "a"), ("value", JSON.str "b")])⟩,
          ⟨"POST", "/api/items", [],
            Body.json (JSON.obj [("name", JSON.str "c"), ("value", JSON.str "d")])⟩]).1 =
        items.map (fun it => (⟨201, Written.json (marshalItem it)⟩ : Response)) ∧
      List.Forall₂ (fun (it : Item) (r : Request) => ∃ i, jsonDecode r.Body = Except.ok i ∧
        it.Name = i.Name ∧ it.Value = i.Value) items
        [⟨"POST", "/api/items", [],
            Body.json (JSON.obj [("name", JSON.str "a"), ("value", JSON.str "b")])⟩,
          ⟨"POST", "/api/items", [],
            Body.json (JSON.obj [("name", JSON.str "c"), ("value", JSON.str "d")])⟩] ∧
      (GetItems (createAll ⟨[], 0⟩
        [⟨"POST", "/api/items", [],
            Body.json (JSON.obj [("name", JSON.str "a"), ("value", JSON.str "b")])⟩,
          ⟨"POST", "/api/items", [],
            Body.json (JSON.obj [("name", JSON.str "c"), ("value", JSON.str "d")])⟩]).2
        ⟨"GET", "/api/items", [], Body.malformed⟩).resp =
        ⟨200, Written.json (JSON.arr (items.map marshalItem))⟩ ∧
      (items.map marshalItem).length = 2 ∧
      (∀ it ∈ items, items.count it = 1) ∧
      (items.map marshalItem).Nodup ∧
      (items.map Item.ID).Nodup :=
  list_reflects_creates 0
    [⟨"POST", "/api/items", [],
        Body.json (JSON.obj [("name", JSON.str "a"), ("value", JSON.str "b")])⟩,
      ⟨"POST", "/api/items", [],
        Body.json (JSON.obj [("name", JSON.str "c"), ("value", JSON.str "d")])⟩]
    ⟨"GET", "/api/items", [], Body.malformed⟩ (List.cons_ne_nil _ _)
    (by
      intro resp hresp
      have hall : (createAll ⟨[], 0⟩
          [⟨"POST", "/api/items", [],
              Body.json (JSON.obj [("name", JSON.str "a"), ("value", JSON.str "b")])⟩,
            ⟨"POST", "/api/items", [],
              Body.json (JSON.obj [("name", JSON.str "c"), ("value", JSON.str "d")])⟩]).1 =
          [⟨201, Written.json (marshalItem ⟨1, "a", "b"⟩)⟩,
            ⟨201, Written.json (marshalItem ⟨2, "c", "d"⟩)⟩] := rfl
      rw [hall] at hresp
      simp only [List.mem_cons, List.mem_singleton, List.not_mem_nil, or_false] at hresp
      rcases hresp with h | h <;> rw [h])

end ItemService
